import Mathlib

/-
Verification of the E2E test harness of the nestjs-e2e-showcase repository:
the test data generator (test/utils/test-data-generator.ts), the entity
factories (test/factories/school.factory.ts, teacher.factory.ts), the factory
registry (test/factories/index.ts) and the test-context builder
(test/utils/test-setup.ts).

JavaScript objects are embedded as association lists of (key, value) pairs in
insertion order; object spread is list concatenation and property lookup takes
the rightmost (latest) binding, matching JS semantics where a later spread
overwrites an earlier key. Randomness (Math.random) is an explicit rational
draw in [0,1); Date.now() is an explicit natural-number argument; the
process-wide uniqueness counter is explicit state.
-/

set_option maxHeartbeats 1000000

namespace NestE2E

/-- A persisted School row (src/database/schema/school.schema.ts): serial id,
required name, nullable address/phone/email, timestamps. -/
structure School where
  id : Int
  name : String
  address : Option String
  phone : Option String
  email : Option String
  createdAt : Nat
  updatedAt : Nat
deriving DecidableEq

/-- A JavaScript value as it appears in the harness payloads: a string, a
number, null, or an associated School entity object. -/
inductive JsVal where
  | str (s : String)
  | num (n : Int)
  | jsNull
  | schoolObj (s : School)
deriving DecidableEq

/-- A JavaScript object: association list in insertion order. -/
abbrev JsObj := List (String × JsVal)

/-- Property lookup with JS overwrite semantics: the latest binding of a key
wins (a later object-spread entry shadows an earlier one). -/
def JsObj.get : JsObj → String → Option JsVal
  | [], _ => none
  | (k, v) :: rest, key =>
    match JsObj.get rest key with
    | some r => some r
    | none => if k = key then some v else none

theorem JsObj.get_append (xs ys : JsObj) (k : String) :
    JsObj.get (xs ++ ys) k =
      match JsObj.get ys k with
      | some v => some v
      | none => JsObj.get xs k := by
  induction xs with
  | nil =>
    simp only [List.nil_append]
    cases h : JsObj.get ys k <;> simp [JsObj.get, h]
  | cons p rest ih =>
    obtain ⟨k', v'⟩ := p
    simp only [List.cons_append, JsObj.get, List.append_eq]
    rw [ih]
    cases h : JsObj.get ys k <;> cases h2 : JsObj.get rest k <;> simp

theorem JsObj.get_append_right (xs ys : JsObj) (k : String) (v : JsVal)
    (h : JsObj.get ys k = some v) : JsObj.get (xs ++ ys) k = some v := by
  rw [JsObj.get_append, h]

theorem JsObj.get_append_left (xs ys : JsObj) (k : String)
    (h : JsObj.get ys k = none) : JsObj.get (xs ++ ys) k = JsObj.get xs k := by
  rw [JsObj.get_append, h]

theorem JsObj.get_eq_none_iff (xs : JsObj) (k : String) :
    JsObj.get xs k = none ↔ ∀ p ∈ xs, p.1 ≠ k := by
  induction xs with
  | nil => simp [JsObj.get]
  | cons p rest ih =>
    obtain ⟨k', v'⟩ := p
    simp only [JsObj.get]
    constructor
    · intro h
      cases hr : JsObj.get rest k with
      | some r => rw [hr] at h; exact absurd h (by simp)
      | none =>
        rw [hr] at h
        intro q hq
        rcases List.mem_cons.1 hq with rfl | hq'
        · simp only []
          intro hk
          rw [if_pos hk] at h
          exact absurd h (by simp)
        · exact (ih.1 hr) q hq'
    · intro h
      have hrest : JsObj.get rest k = none := ih.2 fun q hq => h q (List.mem_cons_of_mem _ hq)
      rw [hrest]
      have : k' ≠ k := h (k', v') (List.mem_cons_self _ _)
      rw [if_neg this]

theorem JsObj.get_filter_ne (xs : JsObj) (k bad : String) (hk : k ≠ bad) :
    JsObj.get (xs.filter fun p => p.1 ≠ bad) k = JsObj.get xs k := by
  induction xs with
  | nil => rfl
  | cons p rest ih =>
    obtain ⟨k', v'⟩ := p
    by_cases h : k' = bad
    · subst h
      rw [List.filter_cons_of_neg (by simp)]
      rw [ih]
      simp only [JsObj.get]
      cases hr : JsObj.get rest k with
      | some r => rfl
      | none => simp [Ne.symm hk]
    · rw [List.filter_cons_of_pos (by simpa using h)]
      simp only [JsObj.get, ih]

/- ----------------------------------------------------------------
   TestDataGenerator (src/test/utils/test-data-generator.ts)
   ---------------------------------------------------------------- -/

/-- State of the process-wide uniqueness counter of TestDataGenerator. -/
structure GenState where
  counter : Nat
deriving DecidableEq

/-- TestDataGenerator.getUniqueId: pre-increment the counter and return it. -/
def getUniqueId (st : GenState) : Nat × GenState :=
  (st.counter + 1, ⟨st.counter + 1⟩)

/-- TestDataGenerator.getTimestampId: Date.now() concatenated with a short
random base-36 token (the token is the explicit environment input). -/
def getTimestampId (now : Nat) (tok : String) : String :=
  Nat.repr now ++ tok

/-- TestDataGenerator.generateEmail. -/
def generateEmail (pre : Option String) (now : Nat) (tok : String) : String :=
  let baseName := pre.getD "test"
  baseName ++ getTimestampId now tok ++ "@example.com"

/-- TestDataGenerator.generatePhone: three Math.random draws. -/
def generatePhone (r1 r2 r3 : ℚ) : String :=
  let area := ⌊r1 * 900⌋ + 100
  let first := ⌊r2 * 900⌋ + 100
  let second := ⌊r3 * 9000⌋ + 1000
  "+1" ++ Int.repr area ++ Int.repr first ++ Int.repr second

/-- TestDataGenerator.generateName: consumes the uniqueness counter. -/
def generateName (pre : Option String) (st : GenState) : String × GenState :=
  let (id, st') := getUniqueId st
  (match pre with
   | some p => p ++ " " ++ Nat.repr id
   | none => "Test Name " ++ Nat.repr id,
   st')

/-- The street names used by TestDataGenerator.generateAddress. -/
def streetsList : List String :=
  ["Main St", "Oak Ave", "Pine Rd", "Elm Way", "Cedar Blvd"]

/-- TestDataGenerator.generateAddress: two Math.random draws. -/
def generateAddress (r1 r2 : ℚ) : String :=
  let streetNumber := ⌊r1 * 9999⌋ + 1
  let street := (streetsList.get? (⌊r2 * (streetsList.length : ℚ)⌋).toNat).getD "undefined"
  Int.repr streetNumber ++ " " ++ street

/-- TestDataGenerator.randomChoice: JS indexing yields undefined (none) when
out of range. -/
def randomChoice {α : Type} (items : List α) (r : ℚ) : Option α :=
  items.get? (⌊r * (items.length : ℚ)⌋).toNat

/-- TestDataGenerator.randomBoolean. -/
def randomBoolean (r : ℚ) : Bool :=
  r < 1 / 2

/-- TestDataGenerator.randomInt: Math.floor(Math.random() * (max - min + 1)) + min.
The source performs no validation of the range. -/
def randomInt (min max : Int) (r : ℚ) : Int :=
  ⌊r * ((max : ℚ) - (min : ℚ) + 1)⌋ + min

/-- Error taxonomy of the spec for the generator helpers. -/
inductive GenError where
  | invalidRange
deriving DecidableEq

/-- Modelled from the spec: the randomInt of section 4.1 of the spec, which
fails with an InvalidRange error when min > max. This definition follows the
words of the spec, not the source, and exists only to be compared with the
randomInt the source actually implements (which has no such check). -/
def specRandomInt (min max : Int) (r : ℚ) : Except GenError Int :=
  if min > max then .error .invalidRange else .ok (randomInt min max r)

/-- C8 counterexample: at min = 5, max = 3, r = 1/2 the code returns the plain
number 4 and raises nothing, while the spec-modelled variant demands an
InvalidRange error; the claimed error path does not exist in the source. -/
theorem randomInt_invalid_range_cx :
    randomInt 5 3 (1 / 2) = 4 ∧ specRandomInt 5 3 (1 / 2) = .error .invalidRange := by
  constructor
  · unfold randomInt
    norm_num
  · unfold specRandomInt randomInt
    norm_num

/-- C8 (amended): for a random draw r in [0,1), randomInt(min,max) returns an
integer in the inclusive range [min, max] whenever min ≤ max; when min > max
it performs no validation and returns, without any error, an integer in the
reversed band (max, min] instead of failing with InvalidRange. -/
theorem randomInt_bounds (min max : Int) (r : ℚ) (h0 : 0 ≤ r) (h1 : r < 1) :
    (min ≤ max → min ≤ randomInt min max r ∧ randomInt min max r ≤ max) ∧
    (max < min → max < randomInt min max r ∧ randomInt min max r ≤ min) := by
  have hfl : randomInt min max r = ⌊r * ((max : ℚ) - (min : ℚ) + 1)⌋ + min := rfl
  constructor
  · intro hle
    have hk1 : (1 : ℚ) ≤ (max : ℚ) - (min : ℚ) + 1 := by
      have : (min : ℚ) ≤ (max : ℚ) := by exact_mod_cast hle
      linarith
    have hlow : 0 ≤ ⌊r * ((max : ℚ) - (min : ℚ) + 1)⌋ :=
      Int.floor_nonneg.2 (mul_nonneg h0 (by linarith))
    have hup : ⌊r * ((max : ℚ) - (min : ℚ) + 1)⌋ < max - min + 1 := by
      apply Int.floor_lt.2
      have hkpos : (0 : ℚ) < (max : ℚ) - (min : ℚ) + 1 := by linarith
      have hm : r * ((max : ℚ) - (min : ℚ) + 1) < 1 * ((max : ℚ) - (min : ℚ) + 1) :=
        mul_lt_mul_of_pos_right h1 hkpos
      push_cast
      linarith
    exact ⟨by rw [hfl]; omega, by rw [hfl]; omega⟩
  · intro hlt
    have hknp : (max : ℚ) - (min : ℚ) + 1 ≤ 0 := by
      have hle1 : ((max + 1 : Int) : ℚ) ≤ ((min : Int) : ℚ) := by
        exact_mod_cast (by omega : max + 1 ≤ min)
      push_cast at hle1
      linarith
    have hup : ⌊r * ((max : ℚ) - (min : ℚ) + 1)⌋ ≤ 0 := by
      have hng : r * ((max : ℚ) - (min : ℚ) + 1) ≤ 0 :=
        mul_nonpos_of_nonneg_of_nonpos h0 hknp
      calc ⌊r * ((max : ℚ) - (min : ℚ) + 1)⌋ ≤ ⌊(0 : ℚ)⌋ := Int.floor_le_floor hng
        _ = 0 := Int.floor_zero
    have hdown : (max - min + 1 : Int) ≤ ⌊r * ((max : ℚ) - (min : ℚ) + 1)⌋ := by
      apply Int.le_floor.2
      have hlo : 1 * ((max : ℚ) - (min : ℚ) + 1) ≤ r * ((max : ℚ) - (min : ℚ) + 1) :=
        mul_le_mul_of_nonpos_right (le_of_lt h1) hknp
      push_cast
      linarith
    exact ⟨by rw [hfl]; omega, by rw [hfl]; omega⟩

/-- C8 witness: the bounds theorem applied at min = 1, max = 3, r = 1/2. -/
theorem randomInt_bounds_witness :
    (1 : Int) ≤ randomInt 1 3 (1 / 2) ∧ randomInt 1 3 (1 / 2) ≤ 3 :=
  (randomInt_bounds 1 3 (1 / 2) (by norm_num) (by norm_num)).1 (by decide)

/- ----------------------------------------------------------------
   Decimal printing facts (about Nat.repr from core), needed to settle
   distinctness of the generated names and emails.
   ---------------------------------------------------------------- -/

theorem toDigitsCore_append (b f n : Nat) (ds : List Char) :
    Nat.toDigitsCore b f n ds = Nat.toDigitsCore b f n [] ++ ds := by
  induction f generalizing n ds with
  | zero => simp [Nat.toDigitsCore]
  | succ f ih =>
    simp only [Nat.toDigitsCore]
    by_cases h : n / b = 0
    · simp [h]
    · rw [if_neg h, if_neg h, ih (n / b) (Nat.digitChar (n % b) :: ds),
          ih (n / b) [Nat.digitChar (n % b)], List.append_assoc]
      rfl

/-- Numeric value of a decimal digit character. -/
def digitVal (c : Char) : Nat := c.toNat - Char.toNat '0'

/-- Numeric value of a list of decimal digit characters. -/
def digitsVal (l : List Char) : Nat :=
  l.foldl (fun a c => a * 10 + digitVal c) 0

theorem digitsVal_append_singleton (xs : List Char) (c : Char) :
    digitsVal (xs ++ [c]) = digitsVal xs * 10 + digitVal c := by
  simp [digitsVal, List.foldl_append]

theorem digitVal_digitChar (d : Nat) (h : d < 10) :
    digitVal (Nat.digitChar d) = d := by
  interval_cases d <;> rfl

theorem digitChar_ne_underscore (d : Nat) (h : d < 10) :
    Nat.digitChar d ≠ '_' := by
  interval_cases d <;> decide

theorem digitsVal_toDigitsCore (f n : Nat) (h : n < f) :
    digitsVal (Nat.toDigitsCore 10 f n []) = n := by
  induction f generalizing n with
  | zero => omega
  | succ f ih =>
    simp only [Nat.toDigitsCore]
    by_cases hz : n / 10 = 0
    · rw [if_pos hz]
      have h10 : n % 10 < 10 := Nat.mod_lt _ (by norm_num)
      have hsing : digitsVal [Nat.digitChar (n % 10)] = n % 10 := by
        simp [digitsVal, digitVal_digitChar _ h10]
      rw [hsing]
      omega
    · rw [if_neg hz, toDigitsCore_append, digitsVal_append_singleton,
          ih (n / 10) (by omega), digitVal_digitChar _ (Nat.mod_lt _ (by norm_num))]
      omega

theorem digitsVal_natRepr (n : Nat) : digitsVal (Nat.repr n).data = n := by
  have : (Nat.repr n).data = Nat.toDigitsCore 10 (n + 1) n [] := rfl
  rw [this]
  exact digitsVal_toDigitsCore (n + 1) n (Nat.lt_succ_self n)

theorem natRepr_injective (a b : Nat) (h : Nat.repr a = Nat.repr b) : a = b := by
  have hd := congrArg (fun s => digitsVal (String.data s)) h
  simpa [digitsVal_natRepr] using hd

theorem mem_toDigitsCore (b f n : Nat) (ds : List Char) (c : Char)
    (hmem : c ∈ Nat.toDigitsCore b f n ds) :
    c ∈ ds ∨ ∃ m : Nat, c = Nat.digitChar (m % b) := by
  induction f generalizing n ds with
  | zero => exact Or.inl hmem
  | succ f ih =>
    simp only [Nat.toDigitsCore] at hmem
    by_cases hz : n / b = 0
    · rw [if_pos hz] at hmem
      rcases List.mem_cons.1 hmem with rfl | hds
      · exact Or.inr ⟨n, rfl⟩
      · exact Or.inl hds
    · rw [if_neg hz] at hmem
      rcases ih (n / b) (Nat.digitChar (n % b) :: ds) hmem with hds | hdig
      · rcases List.mem_cons.1 hds with rfl | hds'
        · exact Or.inr ⟨n, rfl⟩
        · exact Or.inl hds'
      · exact Or.inr hdig

theorem underscore_not_mem_natRepr (n : Nat) : '_' ∉ (Nat.repr n).data := by
  intro hmem
  have hmem' : '_' ∈ Nat.toDigitsCore 10 (n + 1) n [] := hmem
  rcases mem_toDigitsCore 10 (n + 1) n [] '_' hmem' with h | ⟨m, hm⟩
  · simp at h
  · exact digitChar_ne_underscore (m % 10) (Nat.mod_lt _ (by norm_num)) hm.symm

/-- Unique decomposition of a list around a separator element that occurs in
neither prefix: the prefixes and suffixes agree. -/
theorem append_cons_unique {α : Type} (c : α) :
    ∀ (xs₁ xs₂ ys₁ ys₂ : List α), c ∉ xs₁ → c ∉ xs₂ →
      xs₁ ++ c :: ys₁ = xs₂ ++ c :: ys₂ → xs₁ = xs₂ ∧ ys₁ = ys₂ := by
  intro xs₁
  induction xs₁ with
  | nil =>
    intro xs₂ ys₁ ys₂ h1 h2 heq
    cases xs₂ with
    | nil => simpa using heq
    | cons a t =>
      simp only [List.nil_append, List.cons_append, List.cons.injEq] at heq
      have hc : c ∈ a :: t := by rw [← heq.1]; exact List.mem_cons_self c t
      exact absurd hc h2
  | cons a t ih =>
    intro xs₂ ys₁ ys₂ h1 h2 heq
    cases xs₂ with
    | nil =>
      simp only [List.cons_append, List.nil_append, List.cons.injEq] at heq
      have hc : c ∈ a :: t := by rw [heq.1]; exact List.mem_cons_self c t
      exact absurd hc h1
    | cons b u =>
      simp only [List.cons_append, List.cons.injEq] at heq
      obtain ⟨rfl, heq'⟩ := heq
      have ht := ih u ys₁ ys₂ (fun hc => h1 (List.mem_cons_of_mem _ hc))
        (fun hc => h2 (List.mem_cons_of_mem _ hc)) heq'
      exact ⟨by rw [ht.1], ht.2⟩

theorem string_append_data (s t : String) : (s ++ t).data = s.data ++ t.data :=
  String.data_append s t

/-- Injectivity of strings of the shape p ++ Nat.repr n for a fixed prefix. -/
theorem prefix_repr_injective (p : String) (a b : Nat)
    (h : p ++ Nat.repr a = p ++ Nat.repr b) : a = b := by
  have hd := congrArg String.data h
  rw [string_append_data, string_append_data] at hd
  have := List.append_cancel_left hd
  exact natRepr_injective a b (by
    apply congrArg String.mk at this
    simpa [Nat.repr, List.asString] using this)

/-- Injectivity in the index of strings of the shape
p ++ Nat.repr t ++ sep ++ Nat.repr i ++ q where sep contains the underscore
separator: two such strings with different indices differ, whatever the
timestamps. -/
theorem prefix_time_index_injective (p q : String) (t₁ t₂ i₁ i₂ : Nat)
    (h : p ++ Nat.repr t₁ ++ "_" ++ Nat.repr i₁ ++ q
       = p ++ Nat.repr t₂ ++ "_" ++ Nat.repr i₂ ++ q) : i₁ = i₂ := by
  have hd := congrArg String.data h
  simp only [string_append_data] at hd
  have hd' : (Nat.repr t₁).data ++ '_' :: ((Nat.repr i₁).data ++ q.data)
      = (Nat.repr t₂).data ++ '_' :: ((Nat.repr i₂).data ++ q.data) := by
    have h1 := List.append_cancel_left
      (by simpa [List.append_assoc] using hd :
        p.data ++ ((Nat.repr t₁).data ++ (("_" : String).data ++ ((Nat.repr i₁).data ++ q.data)))
          = p.data ++ ((Nat.repr t₂).data ++ (("_" : String).data ++ ((Nat.repr i₂).data ++ q.data))))
    simpa using h1
  have hsplit := append_cons_unique '_' (Nat.repr t₁).data (Nat.repr t₂).data
    ((Nat.repr i₁).data ++ q.data) ((Nat.repr i₂).data ++ q.data)
    (underscore_not_mem_natRepr t₁) (underscore_not_mem_natRepr t₂) hd'
  have htails := hsplit.2
  have hrepr : (Nat.repr i₁).data = (Nat.repr i₂).data :=
    List.append_left_injective q.data htails
  exact natRepr_injective i₁ i₂ (by
    apply congrArg String.mk at hrepr
    simpa [Nat.repr, List.asString] using hrepr)

/- ----------------------------------------------------------------
   Database handle (external collaborator, spec section 6): one table state
   per entity, rows in insertion order, a serial sequence whose value is the
   next identifier to issue (initially 1). Insertion returns the persisted
   row including the generated identifier and timestamps. Administrative
   operations (TRUNCATE ... RESTART IDENTITY, DELETE, ALTER SEQUENCE) are
   fallible; a Boolean flag chosen by the environment decides whether a given
   call fails, which models arbitrary database errors.
   ---------------------------------------------------------------- -/

structure TableState where
  rows : List JsObj
  seq : Nat
deriving DecidableEq

def TableState.init : TableState := ⟨[], 1⟩

structure DbState where
  schoolsT : TableState
  teachersT : TableState
deriving DecidableEq

inductive DbErr where
  | dbFailure
deriving DecidableEq

/-- Row insertion with returning: the persisted row is the payload plus the
generated serial id and timestamps. A later binding shadows an earlier one
under JsObj.get, so appending the generated columns models the database
filling them in. -/
def insertRow (t : TableState) (payload : JsObj) (dbNow : Nat) : JsObj × TableState :=
  let row := payload ++
    [("id", JsVal.num (Int.ofNat t.seq)),
     ("createdAt", JsVal.num (Int.ofNat dbNow)),
     ("updatedAt", JsVal.num (Int.ofNat dbNow))]
  (row, ⟨t.rows ++ [row], t.seq + 1⟩)

/-- Batch insertion of one values(...) call, rows in order. -/
def insertMany (t : TableState) (payloads : List JsObj) (dbNow : Nat) :
    List JsObj × TableState :=
  match payloads with
  | [] => ([], t)
  | p :: rest =>
    let (row, t') := insertRow t p dbNow
    let (rows, t'') := insertMany t' rest dbNow
    (row :: rows, t'')

/- ----------------------------------------------------------------
   SchoolFactory (src/test/factories/school.factory.ts)
   ---------------------------------------------------------------- -/

/-- The environment draws consumed by one SchoolFactory.getDefaultData call:
two Math.random draws for the address, three for the phone, and the
Date.now()/random token consumed by generateEmail. -/
structure SchoolRand where
  addrNum : ℚ
  street : ℚ
  area : ℚ
  first : ℚ
  second : ℚ
  emailNow : Nat
  emailTok : String

/-- SchoolFactory.getDefaultData: name from the uniqueness counter, the other
attributes from randomized generators. -/
def schoolDefaultData (st : GenState) (r : SchoolRand) : JsObj × GenState :=
  let (name, st') := generateName (some "Test School") st
  ([("name", JsVal.str name),
    ("address", JsVal.str (generateAddress r.addrNum r.street)),
    ("phone", JsVal.str (generatePhone r.area r.first r.second)),
    ("email", JsVal.str (generateEmail (some "school") r.emailNow r.emailTok))],
   st')

/-- SchoolFactory.create: spread defaults then overrides, insert inside a
transaction, return the persisted row. -/
def schoolCreate (overrides : JsObj) (st : GenState) (r : SchoolRand)
    (t : TableState) (dbNow : Nat) : JsObj × TableState × GenState :=
  let (d, st') := schoolDefaultData st r
  let data := d ++ overrides
  let (row, t') := insertRow t data dbNow
  (row, t', st')

/-- The payload list built by SchoolFactory.createMany before its single
transaction: one defaults-then-overrides spread per index, evaluated in
order (the uniqueness counter threads through the batch). -/
def schoolPayloads (overrides : JsObj) (rands : Nat → SchoolRand) :
    Nat → Nat → GenState → List JsObj × GenState
  | _, 0, st => ([], st)
  | idx, Nat.succ c, st =>
    let (d, st') := schoolDefaultData st (rands idx)
    let (rest, st'') := schoolPayloads overrides rands (idx + 1) c st'
    ((d ++ overrides) :: rest, st'')

/-- SchoolFactory.createMany: build count payloads, insert them in one
transaction, return the persisted rows. -/
def schoolCreateMany (count : Nat) (overrides : JsObj) (st : GenState)
    (rands : Nat → SchoolRand) (t : TableState) (dbNow : Nat) :
    List JsObj × TableState × GenState :=
  let (payloads, st') := schoolPayloads overrides rands 0 count st
  let (rows, t') := insertMany t payloads dbNow
  (rows, t', st')

/- ----------------------------------------------------------------
   TeacherFactory (src/test/factories/teacher.factory.ts)
   ---------------------------------------------------------------- -/

/-- The school binding destructured from the overrides object, when its value
is an associated School entity. -/
def jsSchool (v : Option JsVal) : Option School :=
  match v with
  | some (.schoolObj s) => some s
  | _ => none

/-- TeacherFactory.getDefaultData(schoolId?): the schoolId attribute is
schoolId-or-null under JS truthiness (0 and undefined both give null). -/
def teacherDefaultData (sid : Option Int) (tF tE : Nat) : JsObj :=
  [("firstName", JsVal.str ("Teacher" ++ Nat.repr tF)),
   ("lastName", JsVal.str "Doe"),
   ("email", JsVal.str ("teacher" ++ Nat.repr tE ++ "@test.com")),
   ("phone", JsVal.str "+1234567890"),
   ("subject", JsVal.str "Mathematics"),
   ("schoolId",
     match sid with
     | some v => if v = 0 then JsVal.jsNull else JsVal.num v
     | none => JsVal.jsNull)]

/-- The insert payload of TeacherFactory.create: destructure school out of
the overrides, spread defaults then the remaining overrides, then assign
data.schoolId when school?.id is truthy. The in-place property assignment is
modeled as an appended shadowing binding, which JsObj.get resolves
identically. -/
def teacherCreateData (overrides : JsObj) (tF tE : Nat) : JsObj :=
  let school := jsSchool (JsObj.get overrides "school")
  let teacherData := overrides.filter fun p => p.1 ≠ "school"
  let sid := school.map School.id
  let data := teacherDefaultData sid tF tE ++ teacherData
  match sid with
  | some v => if v = 0 then data else data ++ [("schoolId", JsVal.num v)]
  | none => data

/-- TeacherFactory.create: build the payload, insert it in a transaction. -/
def teacherCreate (overrides : JsObj) (tF tE : Nat) (t : TableState)
    (dbNow : Nat) : JsObj × TableState :=
  insertRow t (teacherCreateData overrides tF tE) dbNow

/-- The Date.now() values consumed while building one row of a
TeacherFactory.createMany batch: two inside getDefaultData and two in the
per-index firstName/email literals. -/
structure TeacherTimes where
  dNowF : Nat
  dNowE : Nat
  mNowF : Nat
  mNowE : Nat

/-- One payload of TeacherFactory.createMany: defaults, then the per-index
firstName/email literals, then the shared overrides, then the schoolId
assignment when school?.id is truthy. -/
def teacherRowData (overrides : JsObj) (tm : TeacherTimes) (index : Nat) : JsObj :=
  let school := jsSchool (JsObj.get overrides "school")
  let teacherData := overrides.filter fun p => p.1 ≠ "school"
  let sid := school.map School.id
  let data := teacherDefaultData sid tm.dNowF tm.dNowE
    ++ [("firstName", JsVal.str ("Teacher" ++ Nat.repr tm.mNowF ++ "_" ++ Nat.repr index)),
        ("email", JsVal.str ("teacher" ++ Nat.repr tm.mNowE ++ "_" ++ Nat.repr index ++ "@test.com"))]
    ++ teacherData
  match sid with
  | some v => if v = 0 then data else data ++ [("schoolId", JsVal.num v)]
  | none => data

/-- TeacherFactory.createMany: count payloads inserted in one transaction. -/
def teacherCreateMany (count : Nat) (overrides : JsObj) (times : Nat → TeacherTimes)
    (t : TableState) (dbNow : Nat) : List JsObj × TableState :=
  let payloads := (List.range count).map fun i => teacherRowData overrides (times i) i
  insertMany t payloads dbNow

/- ----------------------------------------------------------------
   Cleanup and the factory registry (school.factory.ts cleanup,
   teacher.factory.ts cleanup, test/factories/index.ts TestFactories)
   ---------------------------------------------------------------- -/

/-- TRUNCATE TABLE schools RESTART IDENTITY CASCADE: cascades to teachers and
restarts both sequences. -/
def dbTruncateSchoolsCascade (_db : DbState) (fails : Bool) : Except DbErr DbState :=
  if fails then .error .dbFailure else .ok ⟨TableState.init, TableState.init⟩

/-- TRUNCATE TABLE teachers RESTART IDENTITY. -/
def dbTruncateTeachers (db : DbState) (fails : Bool) : Except DbErr DbState :=
  if fails then .error .dbFailure else .ok ⟨db.schoolsT, TableState.init⟩

/-- DELETE FROM schools (drizzle db.delete): rows removed, sequence kept. -/
def dbDeleteSchools (db : DbState) (fails : Bool) : Except DbErr DbState :=
  if fails then .error .dbFailure else .ok ⟨⟨[], db.schoolsT.seq⟩, db.teachersT⟩

/-- DELETE FROM teachers. -/
def dbDeleteTeachers (db : DbState) (fails : Bool) : Except DbErr DbState :=
  if fails then .error .dbFailure else .ok ⟨db.schoolsT, ⟨[], db.teachersT.seq⟩⟩

/-- ALTER SEQUENCE schools_id_seq RESTART WITH 1. -/
def dbAlterSchoolsSeq (db : DbState) (fails : Bool) : Except DbErr DbState :=
  if fails then .error .dbFailure else .ok ⟨⟨db.schoolsT.rows, 1⟩, db.teachersT⟩

/-- ALTER SEQUENCE teachers_id_seq RESTART WITH 1. -/
def dbAlterTeachersSeq (db : DbState) (fails : Bool) : Except DbErr DbState :=
  if fails then .error .dbFailure else .ok ⟨db.schoolsT, ⟨db.teachersT.rows, 1⟩⟩

/-- TRUNCATE TABLE teachers, schools RESTART IDENTITY CASCADE: the single
bulk statement of TestFactories.cleanup. -/
def dbTruncateBoth (_db : DbState) (fails : Bool) : Except DbErr DbState :=
  if fails then .error .dbFailure else .ok ⟨TableState.init, TableState.init⟩

/-- Which of the three database calls of one factory cleanup fail. -/
structure CleanupFail where
  truncFails : Bool
  deleteFails : Bool
  alterFails : Bool
deriving DecidableEq

inductive Warn where
  | cleanupError
  | fallbackFailed
deriving DecidableEq

/-- SchoolFactory.cleanup: try the bulk truncate; on error warn and try
delete-then-alter; a failure there is warned about and swallowed. Every
branch returns ok: both catch blocks of the source are total. -/
def schoolFactoryCleanup (db : DbState) (f : CleanupFail) :
    Except DbErr (DbState × List Warn) :=
  match dbTruncateSchoolsCascade db f.truncFails with
  | .ok db' => .ok (db', [])
  | .error _ =>
    match dbDeleteSchools db f.deleteFails with
    | .ok db1 =>
      match dbAlterSchoolsSeq db1 f.alterFails with
      | .ok db2 => .ok (db2, [.cleanupError])
      | .error _ => .ok (db1, [.cleanupError, .fallbackFailed])
    | .error _ => .ok (db, [.cleanupError, .fallbackFailed])

/-- TeacherFactory.cleanup, same shape as SchoolFactory.cleanup. -/
def teacherFactoryCleanup (db : DbState) (f : CleanupFail) :
    Except DbErr (DbState × List Warn) :=
  match dbTruncateTeachers db f.truncFails with
  | .ok db' => .ok (db', [])
  | .error _ =>
    match dbDeleteTeachers db f.deleteFails with
    | .ok db1 =>
      match dbAlterTeachersSeq db1 f.alterFails with
      | .ok db2 => .ok (db2, [.cleanupError])
      | .error _ => .ok (db1, [.cleanupError, .fallbackFailed])
    | .error _ => .ok (db, [.cleanupError, .fallbackFailed])

/-- The tags of the FACTORY_REGISTRY mapping. -/
inductive FactoryType where
  | school
  | teacher
deriving DecidableEq

/-- Which factory instances the TestFactories map currently holds (the map is
populated lazily by get). -/
structure RegistryState where
  schoolInst : Bool
  teacherInst : Bool
deriving DecidableEq

def RegistryState.init : RegistryState := ⟨false, false⟩

/-- TestFactories.get: construct and cache the instance on first request; an
instance is identified by its factory-type tag. -/
def registryGet (reg : RegistryState) (ft : FactoryType) : FactoryType × RegistryState :=
  match ft with
  | .school => (.school, ⟨true, reg.teacherInst⟩)
  | .teacher => (.teacher, ⟨reg.schoolInst, true⟩)

/-- Failure choices of the environment for one TestFactories.cleanup run. -/
structure RegistryFail where
  bulkFails : Bool
  teacherFail : CleanupFail
  schoolFail : CleanupFail
deriving DecidableEq

/-- TestFactories.cleanup: one bulk truncate; on error, walk cleanupOrder =
teacher before school and invoke the individual cleanup of each factory that
is present in the map (factories never requested are skipped). The fallback
loop has no catch of its own, so it propagates any error of an individual
cleanup (none can occur: both are total). Returns the invoked factory types
in invocation order. -/
def registryCleanup (reg : RegistryState) (db : DbState) (f : RegistryFail) :
    Except DbErr (DbState × List FactoryType) :=
  match dbTruncateBoth db f.bulkFails with
  | .ok db' => .ok (db', [])
  | .error _ => do
    let (db1, inv1) ←
      if reg.teacherInst then do
        let (d, _) ← teacherFactoryCleanup db f.teacherFail
        pure (d, [FactoryType.teacher])
      else pure (db, ([] : List FactoryType))
    let (db2, inv2) ←
      if reg.schoolInst then do
        let (d, _) ← schoolFactoryCleanup db1 f.schoolFail
        pure (d, [FactoryType.school])
      else pure (db1, ([] : List FactoryType))
    pure (db2, inv1 ++ inv2)

/- ----------------------------------------------------------------
   E2ETestSetup (src/test/utils/test-setup.ts): the test-context builder.
   Modules, controllers and providers are identified by tags; provider
   tokens and values by naturals. The DATABASE_CONNECTION capability is
   provided exactly by AppModule (whose wiring includes the global
   DatabaseModule) and by an explicitly imported DatabaseModule.
   ---------------------------------------------------------------- -/

inductive Mod where
  | appModule
  | databaseModule
  | other (n : Nat)
deriving DecidableEq

abbrev Val := Nat

/-- One recorded ProviderOverride entry of test-setup.ts. The source field
useClass is named useCls here; useFactory is an arbitrary function of its
argument list; inject is the recorded dependency list. -/
structure ProviderOverride where
  token : Nat
  useValue : Option Val
  useCls : Option Nat
  useFactory : Option (List Val → Val)
  inject : List Val

/-- The mutable configuration of one E2ETestSetup instance, as initialized by
its field declarations: imports = the AppModule, empty controllers, providers
and overrides, full-composition mode. -/
structure Builder where
  imports : List Mod
  controllers : List Nat
  providers : List Nat
  providerOverrides : List ProviderOverride
  useCustomModule : Bool

def Builder.init : Builder := ⟨[.appModule], [], [], [], false⟩

/-- E2ETestSetup.withAppModule: reset imports to the AppModule and leave
custom-module mode. -/
def withAppModule (b : Builder) : Builder :=
  { b with imports := [.appModule], useCustomModule := false }

/-- E2ETestSetup.withCustomModule: clear the imports list and enter
custom-module mode. -/
def withCustomModule (b : Builder) : Builder :=
  { b with imports := [], useCustomModule := true }

/-- E2ETestSetup.withImports: appends only in custom-module mode. -/
def withImports (b : Builder) (ms : List Mod) : Builder :=
  if b.useCustomModule then { b with imports := b.imports ++ ms } else b

/-- E2ETestSetup.withControllers: appends only in custom-module mode. -/
def withControllers (b : Builder) (cs : List Nat) : Builder :=
  if b.useCustomModule then { b with controllers := b.controllers ++ cs } else b

/-- E2ETestSetup.withProviders: appends only in custom-module mode. -/
def withProviders (b : Builder) (ps : List Nat) : Builder :=
  if b.useCustomModule then { b with providers := b.providers ++ ps } else b

/-- E2ETestSetup.overrideProvider: record a value override. -/
def overrideProvider (b : Builder) (token : Nat) (v : Val) : Builder :=
  { b with providerOverrides := b.providerOverrides ++ [⟨token, some v, none, none, []⟩] }

/-- E2ETestSetup.overrideProviderWithClass: record a class override. -/
def overrideProviderWithCls (b : Builder) (token : Nat) (c : Nat) : Builder :=
  { b with providerOverrides := b.providerOverrides ++ [⟨token, none, some c, none, []⟩] }

/-- E2ETestSetup.overrideProviderWithFactory: record a factory override with
its declared inject list (defaulting to empty at the call sites). -/
def overrideProviderWithFactory (b : Builder) (token : Nat) (f : List Val → Val)
    (inj : List Val) : Builder :=
  { b with providerOverrides := b.providerOverrides ++ [⟨token, none, none, some f, inj⟩] }

/-- The argument of Test.createTestingModule inside setupApp: imports,
controllers and providers are always passed, whatever the mode. -/
structure ModuleSpec where
  imports : List Mod
  controllers : List Nat
  providers : List Nat
deriving DecidableEq

/-- An override as actually applied to the module builder: setupApp turns a
factory override into a value override of the factory's return value. -/
inductive AppliedOverride where
  | value (token : Nat) (v : Val)
  | cls (token : Nat) (c : Nat)
deriving DecidableEq

/-- The override-application step of setupApp for one recorded entry, in the
branch order of the source (useValue, then useClass, then useFactory, which
is called with zero arguments). The second component logs every invocation
of the factory function by its argument list. -/
def applyOverride (o : ProviderOverride) : Option AppliedOverride × List (List Val) :=
  match o.useValue with
  | some v => (some (.value o.token v), [])
  | none =>
    match o.useCls with
    | some c => (some (.cls o.token c), [])
    | none =>
      match o.useFactory with
      | some f => (some (.value o.token (f [])), [[]])
      | none => (none, [])

/-- The override-application loop of setupApp over all recorded entries in
registration order. -/
def applyOverrides : List ProviderOverride → List AppliedOverride × List (List Val)
  | [] => ([], [])
  | o :: rest =>
    let (a, calls) := applyOverride o
    let (applied, calls') := applyOverrides rest
    (match a with
     | some x => x :: applied
     | none => applied,
     calls ++ calls')

/-- Whether a module wires the DATABASE_CONNECTION capability. -/
def providesDb : Mod → Bool
  | .appModule => true
  | .databaseModule => true
  | .other _ => false

/-- A built test context: the running application (carrying the module spec
it was built from), the applied overrides, and — only when the database
capability resolved — the database handle and the factory registry. -/
structure TestCtx where
  app : Option ModuleSpec
  appliedOverrides : List AppliedOverride
  db : Option DbState
  factories : Option RegistryState

/-- E2ETestSetup.setupApp: create the testing module from the accumulated
lists, apply every recorded override in order, initialize the application,
then try to resolve DATABASE_CONNECTION; on failure warn and leave both the
database handle and the factories unset. Also returns the factory-invocation
log of the override application. -/
def setupApp (b : Builder) (dbInit : DbState) : TestCtx × List (List Val) :=
  let spec : ModuleSpec := ⟨b.imports, b.controllers, b.providers⟩
  let (applied, calls) := applyOverrides b.providerOverrides
  let resolved := b.imports.any providesDb
  ({ app := some spec,
     appliedOverrides := applied,
     db := if resolved then some dbInit else none,
     factories := if resolved then some RegistryState.init else none },
   calls)

inductive SetupErr where
  | factoriesUnavailable
deriving DecidableEq

/-- E2ETestSetup.getFactory: throws when no factories are attached, else
delegates to the registry get. -/
def getFactory (ctx : TestCtx) (ft : FactoryType) :
    Except SetupErr (FactoryType × RegistryState) :=
  match ctx.factories with
  | none => .error .factoriesUnavailable
  | some reg => .ok (registryGet reg ft)

inductive TdEvent where
  | registryCleanupRun
  | appClose
deriving DecidableEq

/-- E2ETestSetup.cleanup: delegate to the registry cleanup when factories
exist (they exist exactly when the database handle does); any error of the
registry cleanup would propagate, there is no catch here. -/
def ctxCleanup (ctx : TestCtx) (f : RegistryFail) :
    Except DbErr (TestCtx × List TdEvent) :=
  match ctx.factories, ctx.db with
  | some reg, some db => do
    let (db', _) ← registryCleanup reg db f
    pure ({ ctx with db := some db' }, [.registryCleanupRun])
  | _, _ => .ok (ctx, [])

/-- E2ETestSetup.teardown: cleanup, then close the application if the app
field is set. The app field is never cleared, so a later teardown sees it
still set. The event list records each shutdown attempt. -/
def teardown (ctx : TestCtx) (f : RegistryFail) :
    Except DbErr (TestCtx × List TdEvent) := do
  let (ctx', evs) ← ctxCleanup ctx f
  match ctx'.app with
  | some _ => pure (ctx', evs ++ [.appClose])
  | none => pure (ctx', evs)

/- ----------------------------------------------------------------
   Helper lemmas about cleanup totality (shared by several claims).
   ---------------------------------------------------------------- -/

theorem schoolFactoryCleanup_ok (db : DbState) (f : CleanupFail) :
    ∃ out, schoolFactoryCleanup db f = .ok out := by
  obtain ⟨tf1, tf2, tf3⟩ := f
  cases tf1 <;> cases tf2 <;> cases tf3 <;> exact ⟨_, rfl⟩

theorem teacherFactoryCleanup_ok (db : DbState) (f : CleanupFail) :
    ∃ out, teacherFactoryCleanup db f = .ok out := by
  obtain ⟨tf1, tf2, tf3⟩ := f
  cases tf1 <;> cases tf2 <;> cases tf3 <;> exact ⟨_, rfl⟩

theorem registryCleanup_ok (reg : RegistryState) (db : DbState) (f : RegistryFail) :
    ∃ out, registryCleanup reg db f = .ok out := by
  obtain ⟨bf, tf, sf⟩ := f
  obtain ⟨si, ti⟩ := reg
  obtain ⟨tf1, tf2, tf3⟩ := tf
  obtain ⟨sf1, sf2, sf3⟩ := sf
  cases bf <;> cases ti <;> cases si <;> cases tf1 <;> cases tf2 <;> cases tf3 <;>
    cases sf1 <;> cases sf2 <;> cases sf3 <;> exact ⟨_, rfl⟩

/- ----------------------------------------------------------------
   Claim C1
   ---------------------------------------------------------------- -/

/-- C1 counterexample: a registry that never instantiated any factory, over a
database holding a school row, with a failing bulk truncate: the fallback
invokes no individual cleanup at all (the invoked list is empty and the row
survives), although the claim requires each entity's individual cleanup to
run, Teacher before School. -/
theorem registryCleanup_skips_uninstantiated_cx :
    registryCleanup ⟨false, false⟩
        ⟨⟨[[("name", JsVal.str "A")]], 2⟩, TableState.init⟩
        ⟨true, ⟨false, false, false⟩, ⟨false, false, false⟩⟩
      = .ok (⟨⟨[[("name", JsVal.str "A")]], 2⟩, TableState.init⟩, []) := rfl

/-- C1 (amended): registry cleanup() never raises for any registry state,
database state and failure pattern; when the bulk truncate succeeds it erases
and resets both tables with no individual cleanup; when the bulk truncate
fails it invokes the individual cleanup() of exactly those factories already
instantiated in the registry, in strict dependency order Teacher before
School, with every failure inside an individual cleanup logged and swallowed
(the individual cleanups are total). Factories never requested are skipped by
the fallback, contrary to the claim's every-entity wording. -/
theorem registryCleanup_behavior (reg : RegistryState) (db : DbState) (f : RegistryFail) :
    (∃ out, registryCleanup reg db f = .ok out) ∧
    (f.bulkFails = false →
      registryCleanup reg db f = .ok (⟨TableState.init, TableState.init⟩, [])) ∧
    (f.bulkFails = true →
      ∃ db', registryCleanup reg db f = .ok (db',
        (if reg.teacherInst then [FactoryType.teacher] else [])
          ++ (if reg.schoolInst then [FactoryType.school] else []))) := by
  obtain ⟨bf, tf, sf⟩ := f
  obtain ⟨si, ti⟩ := reg
  obtain ⟨tf1, tf2, tf3⟩ := tf
  obtain ⟨sf1, sf2, sf3⟩ := sf
  refine ⟨?_, ?_, ?_⟩
  · cases bf <;> cases ti <;> cases si <;> cases tf1 <;> cases tf2 <;> cases tf3 <;>
      cases sf1 <;> cases sf2 <;> cases sf3 <;> exact ⟨_, rfl⟩
  · cases bf with
    | false => intro _; rfl
    | true => intro h; exact Bool.noConfusion h
  · cases bf with
    | false => intro h; exact Bool.noConfusion h
    | true =>
      intro _
      cases ti <;> cases si <;> cases tf1 <;> cases tf2 <;> cases tf3 <;>
        cases sf1 <;> cases sf2 <;> cases sf3 <;> exact ⟨_, rfl⟩

/-- C1 witness: the behavior theorem applied to a registry with both
factories instantiated and a failing bulk attempt: both individual cleanups
run, Teacher first. -/
theorem registryCleanup_behavior_witness :
    ∃ db', registryCleanup ⟨true, true⟩ ⟨⟨[], 5⟩, ⟨[], 7⟩⟩
        ⟨true, ⟨false, false, false⟩, ⟨false, false, false⟩⟩
      = .ok (db', [FactoryType.teacher, FactoryType.school]) := by
  have h := (registryCleanup_behavior ⟨true, true⟩ ⟨⟨[], 5⟩, ⟨[], 7⟩⟩
    ⟨true, ⟨false, false, false⟩, ⟨false, false, false⟩⟩).2.2 rfl
  simpa using h

/- ----------------------------------------------------------------
   Claim C9
   ---------------------------------------------------------------- -/

/-- C9: overrideProviderWithFactory records the factory entry together with
its inject list; the build step applies such an entry by invoking the factory
function exactly once with zero arguments (the call log is one empty argument
list) and installing its return value as a value override; and the recorded
inject list has no influence on the application whatsoever. -/
theorem overrideProviderWithFactory_semantics (b : Builder) (token : Nat)
    (f : List Val → Val) (inj : List Val) :
    (overrideProviderWithFactory b token f inj).providerOverrides
      = b.providerOverrides ++ [⟨token, none, none, some f, inj⟩] ∧
    applyOverride ⟨token, none, none, some f, inj⟩
      = (some (.value token (f [])), [[]]) ∧
    (∀ inj2 : List Val, applyOverride ⟨token, none, none, some f, inj2⟩
      = (some (.value token (f [])), [[]])) :=
  ⟨rfl, rfl, fun _ => rfl⟩

/- ----------------------------------------------------------------
   Claim C5
   ---------------------------------------------------------------- -/

/-- C5: for every build whose imports resolve no database capability, every
getFactory call on the resulting context fails with FactoriesUnavailable. -/
theorem getFactory_unavailable (b : Builder) (dbInit : DbState) (ft : FactoryType)
    (h : b.imports.any providesDb = false) :
    getFactory (setupApp b dbInit).1 ft = .error .factoriesUnavailable := by
  unfold getFactory setupApp
  simp [h]

/-- C5 witness: a custom composition with no wiring fragments yields a
context whose getFactory fails with FactoriesUnavailable. -/
theorem getFactory_unavailable_witness :
    getFactory (setupApp (withCustomModule Builder.init)
        ⟨TableState.init, TableState.init⟩).1 .school
      = .error .factoriesUnavailable :=
  getFactory_unavailable (withCustomModule Builder.init)
    ⟨TableState.init, TableState.init⟩ .school rfl

/- ----------------------------------------------------------------
   Claim C3
   ---------------------------------------------------------------- -/

/-- C3 counterexample: first, adding the import fragment other 5 in custom
mode, switching to full mode and back to custom mode leaves the imports list
empty — the fragment added earlier to the custom list has been discarded,
contradicting the discards-nothing part of the claim. Second, a controller
added while custom mode was active is part of the application built under
full-composition mode, contradicting the never-applied-to-the-other-mode
part. -/
theorem builder_mode_cx :
    (withCustomModule (withAppModule (withImports (withCustomModule Builder.init)
        [.other 5]))).imports = [] ∧
    (setupApp (withAppModule (withControllers (withCustomModule Builder.init) [7]))
        ⟨TableState.init, TableState.init⟩).1.app
      = some ⟨[.appModule], [7], []⟩ :=
  ⟨rfl, rfl⟩

/-- C3 (amended): the additive calls withImports/withControllers/withProviders
are silently ignored while full-composition mode is selected; but the three
fragment lists are shared between the modes rather than kept per mode:
switching with withAppModule resets the imports list to the AppModule and
switching with withCustomModule clears it (discarding custom imports added
earlier), while controllers and providers survive every mode switch and are
passed to every build, whichever mode performs it. -/
theorem builder_modes (b : Builder) (ms : List Mod) (cs ps : List Nat)
    (h : b.useCustomModule = false) :
    withImports b ms = b ∧ withControllers b cs = b ∧ withProviders b ps = b ∧
    (∀ b2 : Builder,
      (withAppModule b2).imports = [.appModule] ∧
      (withCustomModule b2).imports = [] ∧
      (withAppModule b2).controllers = b2.controllers ∧
      (withCustomModule b2).controllers = b2.controllers ∧
      (withAppModule b2).providers = b2.providers ∧
      (withCustomModule b2).providers = b2.providers) ∧
    (∀ (b2 : Builder) (dbInit : DbState),
      (setupApp b2 dbInit).1.app = some ⟨b2.imports, b2.controllers, b2.providers⟩) := by
  refine ⟨?_, ?_, ?_, fun b2 => ⟨rfl, rfl, rfl, rfl, rfl, rfl⟩, fun b2 dbInit => rfl⟩
  · unfold withImports; rw [h]; rfl
  · unfold withControllers; rw [h]; rfl
  · unfold withProviders; rw [h]; rfl

/-- C3 witness: the mode theorem applied to the initial builder (which is in
full-composition mode): an import fragment is ignored. -/
theorem builder_modes_witness :
    withImports Builder.init [.other 3] = Builder.init :=
  (builder_modes Builder.init [.other 3] [] [] rfl).1

/- ----------------------------------------------------------------
   Claim C4
   ---------------------------------------------------------------- -/

theorem teardown_spec (ctx : TestCtx) (f : RegistryFail) :
    ∃ db2, teardown ctx f
        = .ok ({ ctx with db := db2 },
            (match ctx.factories, ctx.db with
             | some _, some _ => [TdEvent.registryCleanupRun]
             | _, _ => [])
            ++ (match ctx.app with | some _ => [TdEvent.appClose] | none => [])) ∧
      (ctx.factories = none → db2 = ctx.db) := by
  obtain ⟨oapp, ao, odb, ofac⟩ := ctx
  cases ofac with
  | none => cases oapp <;> exact ⟨odb, rfl, fun _ => rfl⟩
  | some reg =>
    cases odb with
    | none => cases oapp <;> exact ⟨none, rfl, fun _ => rfl⟩
    | some db =>
      obtain ⟨⟨db', l⟩, hout⟩ := registryCleanup_ok reg db f
      refine ⟨some db', ?_, fun hc => Option.noConfusion hc⟩
      cases oapp <;> simp [teardown, ctxCleanup, hout] <;> rfl

/-- C4 (amended): teardown() never raises, and when build() never ran (no app
and no factories) it does nothing at all, each step checking presence before
acting; but the app reference is never cleared by teardown, so after a first
completed teardown of a built context, a second teardown() attempts the
application shutdown again — the harness does not itself prevent a repeated
shutdown, it delegates that concern to the framework's close(). -/
theorem teardown_checks (ctx : TestCtx) (f : RegistryFail) :
    (ctx.app = none → ctx.factories = none → teardown ctx f = .ok (ctx, [])) ∧
    (∃ out, teardown ctx f = .ok out) ∧
    (∀ c1 evs, teardown ctx f = .ok (c1, evs) →
      c1.app = ctx.app ∧ ∀ m, ctx.app = some m → TdEvent.appClose ∈ evs) := by
  obtain ⟨db2, heq, hnone⟩ := teardown_spec ctx f
  refine ⟨?_, ⟨_, heq⟩, ?_⟩
  · intro happ hfac
    obtain ⟨oapp, ao, odb, ofac⟩ := ctx
    have h1 : oapp = none := happ
    have h2 : ofac = none := hfac
    subst h1; subst h2
    rw [heq, hnone rfl]
    cases odb <;> rfl
  · intro c1 evs h
    rw [heq] at h
    have hp := Except.ok.inj h
    rw [Prod.mk.injEq] at hp
    obtain ⟨hc1, hevs⟩ := hp
    subst hc1
    refine ⟨rfl, ?_⟩
    intro m hm
    rw [← hevs]
    simp [hm]

/-- C4 counterexample: a context built from the initial (full-composition)
builder: the first teardown completes one shutdown attempt and returns the
context unchanged — the app reference is still set — and running teardown a
second time attempts the application shutdown again, contrary to the claim
that a completed shutdown is not re-attempted. -/
theorem teardown_not_idempotent_cx :
    teardown (setupApp Builder.init ⟨TableState.init, TableState.init⟩).1
        ⟨false, ⟨false, false, false⟩, ⟨false, false, false⟩⟩
      = .ok ((setupApp Builder.init ⟨TableState.init, TableState.init⟩).1,
             [TdEvent.registryCleanupRun, TdEvent.appClose]) ∧
    ((teardown (setupApp Builder.init ⟨TableState.init, TableState.init⟩).1
        ⟨false, ⟨false, false, false⟩, ⟨false, false, false⟩⟩).bind
      (fun p => teardown p.1 ⟨false, ⟨false, false, false⟩, ⟨false, false, false⟩⟩))
      = .ok ((setupApp Builder.init ⟨TableState.init, TableState.init⟩).1,
             [TdEvent.registryCleanupRun, TdEvent.appClose]) :=
  ⟨rfl, rfl⟩

/-- C4 witness: the teardown safety theorem applied to a context on which
build never ran: nothing happens and nothing raises, whatever failures the
environment would inject. -/
theorem teardown_checks_witness :
    teardown ⟨none, [], none, none⟩ ⟨true, ⟨true, true, true⟩, ⟨true, true, true⟩⟩
      = .ok (⟨none, [], none, none⟩, []) :=
  (teardown_checks ⟨none, [], none, none⟩
    ⟨true, ⟨true, true, true⟩, ⟨true, true, true⟩⟩).1 rfl rfl

/- ----------------------------------------------------------------
   Row lookup helpers shared by the factory claims.
   ---------------------------------------------------------------- -/

theorem get_dbCols_none (seqv dbNow : Nat) (k : String)
    (h1 : k ≠ "id") (h2 : k ≠ "createdAt") (h3 : k ≠ "updatedAt") :
    JsObj.get [("id", JsVal.num (Int.ofNat seqv)),
               ("createdAt", JsVal.num (Int.ofNat dbNow)),
               ("updatedAt", JsVal.num (Int.ofNat dbNow))] k = none := by
  simp [JsObj.get, Ne.symm h1, Ne.symm h2, Ne.symm h3]

theorem insertRow_get_other (t : TableState) (payload : JsObj) (dbNow : Nat)
    (k : String) (h1 : k ≠ "id") (h2 : k ≠ "createdAt") (h3 : k ≠ "updatedAt") :
    JsObj.get (insertRow t payload dbNow).1 k = JsObj.get payload k := by
  show JsObj.get (payload ++
    [("id", JsVal.num (Int.ofNat t.seq)),
     ("createdAt", JsVal.num (Int.ofNat dbNow)),
     ("updatedAt", JsVal.num (Int.ofNat dbNow))]) k = JsObj.get payload k
  exact JsObj.get_append_left _ _ _ (get_dbCols_none t.seq dbNow k h1 h2 h3)

theorem insertRow_get_id (t : TableState) (payload : JsObj) (dbNow : Nat) :
    JsObj.get (insertRow t payload dbNow).1 "id" = some (.num (Int.ofNat t.seq)) := by
  show JsObj.get (payload ++
    [("id", JsVal.num (Int.ofNat t.seq)),
     ("createdAt", JsVal.num (Int.ofNat dbNow)),
     ("updatedAt", JsVal.num (Int.ofNat dbNow))]) "id" = _
  apply JsObj.get_append_right
  simp [JsObj.get]

/-- The payload of TeacherFactory.create under a school-entity override with
a truthy identifier: defaults with the extracted id, the filtered overrides,
then the schoolId assignment. -/
theorem teacherCreateData_school_eq (o : JsObj) (s : School) (tF tE : Nat)
    (hs : JsObj.get o "school" = some (.schoolObj s)) (hid : s.id ≠ 0) :
    teacherCreateData o tF tE
      = teacherDefaultData (some s.id) tF tE
        ++ ((o.filter fun p => p.1 ≠ "school") ++ [("schoolId", JsVal.num s.id)]) := by
  unfold teacherCreateData
  rw [hs]
  simp [jsSchool, hid]

theorem teacherCreate_schoolId_eq (o : JsObj) (s : School) (tF tE : Nat)
    (t : TableState) (dbNow : Nat)
    (hs : JsObj.get o "school" = some (.schoolObj s)) (hid : s.id ≠ 0) :
    JsObj.get (teacherCreate o tF tE t dbNow).1 "schoolId" = some (.num s.id) := by
  show JsObj.get (insertRow t (teacherCreateData o tF tE) dbNow).1 "schoolId" = _
  rw [insertRow_get_other t _ dbNow "schoolId" (by decide) (by decide) (by decide),
      teacherCreateData_school_eq o s tF tE hs hid]
  exact JsObj.get_append_right _ _ _ _
    (JsObj.get_append_right _ _ _ _ (by simp [JsObj.get]))

theorem teacherData_no_school (o : JsObj) :
    ∀ p ∈ (o.filter fun p => p.1 ≠ "school"), p.1 ≠ "school" := by
  intro p hp
  have := List.of_mem_filter hp
  simpa using this

theorem teacherDefaultData_no_school (sid : Option Int) (tF tE : Nat) :
    ∀ p ∈ teacherDefaultData sid tF tE, p.1 ≠ "school" := by
  intro p hp
  simp only [teacherDefaultData, List.mem_cons, List.not_mem_nil, or_false] at hp
  rcases hp with rfl | rfl | rfl | rfl | rfl | rfl <;> simp

/- ----------------------------------------------------------------
   Claim C2
   ---------------------------------------------------------------- -/

/-- C2: when the overrides hold an associated School entity (whose identifier
is nonzero, as every persisted serial identifier is), the persisted teacher
row's schoolId foreign key equals that School's identifier, and the school
object itself is dropped from the insert payload: no attribute of the payload
is named school. -/
theorem teacher_school_override_fk (o : JsObj) (s : School) (tF tE : Nat)
    (t : TableState) (dbNow : Nat)
    (hs : JsObj.get o "school" = some (.schoolObj s)) (hid : s.id ≠ 0) :
    JsObj.get (teacherCreate o tF tE t dbNow).1 "schoolId" = some (.num s.id) ∧
    ∀ p ∈ teacherCreateData o tF tE, p.1 ≠ "school" := by
  refine ⟨teacherCreate_schoolId_eq o s tF tE t dbNow hs hid, ?_⟩
  rw [teacherCreateData_school_eq o s tF tE hs hid]
  intro p hp
  rcases List.mem_append.1 hp with h1 | h12
  · exact teacherDefaultData_no_school _ _ _ p h1
  · rcases List.mem_append.1 h12 with h2 | h3
    · exact teacherData_no_school o p h2
    · simp only [List.mem_cons, List.not_mem_nil, or_false] at h3
      subst h3
      simp

/-- C2 witness: creating a teacher with an associated school of identifier 7
persists schoolId 7 and no school attribute. -/
theorem teacher_school_override_fk_witness :
    JsObj.get (teacherCreate [("school", JsVal.schoolObj ⟨7, "S", none, none, none, 0, 0⟩)]
        1 2 TableState.init 0).1 "schoolId" = some (JsVal.num 7) ∧
    ∀ p ∈ teacherCreateData [("school", JsVal.schoolObj ⟨7, "S", none, none, none, 0, 0⟩)] 1 2,
      p.1 ≠ "school" :=
  teacher_school_override_fk _ ⟨7, "S", none, none, none, 0, 0⟩ 1 2 TableState.init 0
    rfl (by decide)

/- ----------------------------------------------------------------
   Claim C10
   ---------------------------------------------------------------- -/

/-- C10: when the overrides supply both an associated School entity with a
truthy (nonzero) identifier and an explicit schoolId attribute, the persisted
row's schoolId is the School entity's identifier and not the explicitly
overridden value: the entity extraction runs after the per-attribute merge
and overwrites it. -/
theorem teacher_school_beats_explicit (o : JsObj) (s : School) (tF tE : Nat)
    (t : TableState) (dbNow : Nat)
    (hs : JsObj.get o "school" = some (.schoolObj s)) (hid : s.id ≠ 0) :
    JsObj.get (teacherCreate o tF tE t dbNow).1 "schoolId" = some (.num s.id) ∧
    ∀ w, JsObj.get o "schoolId" = some w → w ≠ .num s.id →
      JsObj.get (teacherCreate o tF tE t dbNow).1 "schoolId" ≠ some w := by
  have h1 := teacherCreate_schoolId_eq o s tF tE t dbNow hs hid
  refine ⟨h1, fun w _ hne hcon => hne ?_⟩
  rw [h1] at hcon
  exact (Option.some.inj hcon).symm

/-- C10 witness: a school entity with identifier 7 together with an explicit
schoolId override of 3: the persisted schoolId is 7, not 3. -/
theorem teacher_school_beats_explicit_witness :
    JsObj.get (teacherCreate
        [("schoolId", JsVal.num 3), ("school", JsVal.schoolObj ⟨7, "S", none, none, none, 0, 0⟩)]
        1 2 TableState.init 0).1 "schoolId" = some (JsVal.num 7) ∧
    JsObj.get (teacherCreate
        [("schoolId", JsVal.num 3), ("school", JsVal.schoolObj ⟨7, "S", none, none, none, 0, 0⟩)]
        1 2 TableState.init 0).1 "schoolId" ≠ some (JsVal.num 3) := by
  have h := teacher_school_beats_explicit
    [("schoolId", JsVal.num 3), ("school", JsVal.schoolObj ⟨7, "S", none, none, none, 0, 0⟩)]
    ⟨7, "S", none, none, none, 0, 0⟩ 1 2 TableState.init 0 rfl (by decide)
  exact ⟨h.1, h.2 (JsVal.num 3) rfl (by decide)⟩

/- ----------------------------------------------------------------
   Claim C7
   ---------------------------------------------------------------- -/

/-- C7: after a successful factory cleanup (either the bulk erase-and-reset
succeeded, or the whole delete-then-reset fallback succeeded), the entity's
storage holds no rows and its sequence is back at its initial value, and a
create on the reset storage persists a row with identifier 1; the same holds
for both tables after a successful bulk registry cleanup. -/
theorem cleanup_restarts_identifiers (db : DbState) (f : CleanupFail)
    (h : f.truncFails = false ∨ (f.deleteFails = false ∧ f.alterFails = false)) :
    (∃ db' w, schoolFactoryCleanup db f = .ok (db', w) ∧ db'.schoolsT = TableState.init) ∧
    (∃ db' w, teacherFactoryCleanup db f = .ok (db', w) ∧ db'.teachersT = TableState.init) ∧
    (∀ (reg : RegistryState) (fr : RegistryFail), fr.bulkFails = false →
      registryCleanup reg db fr = .ok (⟨TableState.init, TableState.init⟩, [])) ∧
    (∀ o st r dbNow, JsObj.get (schoolCreate o st r TableState.init dbNow).1 "id"
      = some (JsVal.num 1)) ∧
    (∀ o tF tE dbNow, JsObj.get (teacherCreate o tF tE TableState.init dbNow).1 "id"
      = some (JsVal.num 1)) := by
  obtain ⟨tf1, tf2, tf3⟩ := f
  refine ⟨?_, ?_, ?_,
    fun o st r dbNow => insertRow_get_id TableState.init _ dbNow,
    fun o tF tE dbNow => insertRow_get_id TableState.init _ dbNow⟩
  · rcases h with h1 | ⟨h2, h3⟩
    · have h1' : tf1 = false := h1
      subst h1'
      exact ⟨⟨TableState.init, TableState.init⟩, [], rfl, rfl⟩
    · have h2' : tf2 = false := h2
      have h3' : tf3 = false := h3
      subst h2'; subst h3'
      cases tf1
      · exact ⟨⟨TableState.init, TableState.init⟩, [], rfl, rfl⟩
      · exact ⟨⟨TableState.init, db.teachersT⟩, [.cleanupError], rfl, rfl⟩
  · rcases h with h1 | ⟨h2, h3⟩
    · have h1' : tf1 = false := h1
      subst h1'
      exact ⟨⟨db.schoolsT, TableState.init⟩, [], rfl, rfl⟩
    · have h2' : tf2 = false := h2
      have h3' : tf3 = false := h3
      subst h2'; subst h3'
      cases tf1
      · exact ⟨⟨db.schoolsT, TableState.init⟩, [], rfl, rfl⟩
      · exact ⟨⟨db.schoolsT, TableState.init⟩, [.cleanupError], rfl, rfl⟩
  · intro reg fr hbulk
    obtain ⟨bf, ftf, fsf⟩ := fr
    have hb' : bf = false := hbulk
    subst hb'
    rfl

/-- C7 witness: a successful bulk cleanup of a populated school table resets
it to the empty state. -/
theorem cleanup_restarts_identifiers_witness :
    ∃ db' w, schoolFactoryCleanup ⟨⟨[[("name", JsVal.str "A")]], 4⟩, ⟨[], 9⟩⟩
        ⟨false, true, true⟩ = .ok (db', w) ∧ db'.schoolsT = TableState.init :=
  (cleanup_restarts_identifiers ⟨⟨[[("name", JsVal.str "A")]], 4⟩, ⟨[], 9⟩⟩
    ⟨false, true, true⟩ (Or.inl rfl)).1

/- ----------------------------------------------------------------
   Batch lemmas for createMany (claim C6).
   ---------------------------------------------------------------- -/

theorem insertMany_cons (t : TableState) (p : JsObj) (rest : List JsObj) (dbNow : Nat) :
    insertMany t (p :: rest) dbNow
      = ((insertRow t p dbNow).1 :: (insertMany (insertRow t p dbNow).2 rest dbNow).1,
         (insertMany (insertRow t p dbNow).2 rest dbNow).2) := rfl

theorem insertMany_length (t : TableState) (ps : List JsObj) (dbNow : Nat) :
    (insertMany t ps dbNow).1.length = ps.length := by
  induction ps generalizing t with
  | nil => rfl
  | cons p rest ih =>
    rw [insertMany_cons]
    simp [ih]

theorem insertMany_map_get (t : TableState) (ps : List JsObj) (dbNow : Nat)
    (k : String) (h1 : k ≠ "id") (h2 : k ≠ "createdAt") (h3 : k ≠ "updatedAt") :
    (insertMany t ps dbNow).1.map (fun r => JsObj.get r k)
      = ps.map fun p => JsObj.get p k := by
  induction ps generalizing t with
  | nil => rfl
  | cons p rest ih =>
    rw [insertMany_cons]
    simp only [List.map_cons]
    rw [insertRow_get_other t p dbNow k h1 h2 h3, ih]

theorem schoolPayloads_succ (o : JsObj) (rands : Nat → SchoolRand) (idx c : Nat)
    (st : GenState) :
    schoolPayloads o rands idx (c + 1) st
      = (((schoolDefaultData st (rands idx)).1 ++ o)
          :: (schoolPayloads o rands (idx + 1) c (schoolDefaultData st (rands idx)).2).1,
         (schoolPayloads o rands (idx + 1) c (schoolDefaultData st (rands idx)).2).2) := rfl

theorem schoolPayloads_length (o : JsObj) (rands : Nat → SchoolRand) :
    ∀ (count idx : Nat) (st : GenState),
      (schoolPayloads o rands idx count st).1.length = count := by
  intro count
  induction count with
  | zero => intro idx st; rfl
  | succ c ih =>
    intro idx st
    rw [schoolPayloads_succ]
    simp [ih]

theorem schoolDefaultData_get_name (st : GenState) (r : SchoolRand) :
    JsObj.get (schoolDefaultData st r).1 "name"
      = some (JsVal.str ("Test School" ++ " " ++ Nat.repr (st.counter + 1))) := by
  simp [schoolDefaultData, generateName, getUniqueId, JsObj.get]

theorem schoolDefaultData_counter (st : GenState) (r : SchoolRand) :
    (schoolDefaultData st r).2.counter = st.counter + 1 := rfl

theorem schoolPayloads_names (o : JsObj) (rands : Nat → SchoolRand)
    (ho : JsObj.get o "name" = none) :
    ∀ (count idx : Nat) (st : GenState),
      (schoolPayloads o rands idx count st).1.map (fun p => JsObj.get p "name")
        = (List.range count).map
            (fun j => some (JsVal.str ("Test School" ++ " " ++ Nat.repr (st.counter + j + 1)))) := by
  intro count
  induction count with
  | zero => intro idx st; rfl
  | succ c ih =>
    intro idx st
    rw [schoolPayloads_succ, List.range_succ_eq_map]
    simp only [List.map_cons, List.map_map]
    refine congrArg₂ List.cons ?_ ?_
    · rw [JsObj.get_append_left _ _ _ ho, schoolDefaultData_get_name]
    · rw [ih (idx + 1) (schoolDefaultData st (rands idx)).2]
      apply List.map_congr_left
      intro j _
      simp only [Function.comp, schoolDefaultData_counter]
      rw [show st.counter + 1 + j + 1 = st.counter + (j + 1) + 1 by omega]

theorem schoolPayloads_override (o : JsObj) (rands : Nat → SchoolRand)
    (k : String) (v : JsVal) (hk : JsObj.get o k = some v) :
    ∀ (count idx : Nat) (st : GenState),
      ∀ p ∈ (schoolPayloads o rands idx count st).1, JsObj.get p k = some v := by
  intro count
  induction count with
  | zero => intro idx st p hp; exact absurd hp (List.not_mem_nil p)
  | succ c ih =>
    intro idx st p hp
    rw [schoolPayloads_succ] at hp
    rcases List.mem_cons.1 hp with rfl | hrest
    · exact JsObj.get_append_right _ _ _ _ hk
    · exact ih (idx + 1) _ p hrest

theorem teacherData_core_get_firstName (o : JsObj) (tm : TeacherTimes) (i : Nat)
    (ho : JsObj.get o "firstName" = none) (sid : Option Int) :
    JsObj.get (teacherDefaultData sid tm.dNowF tm.dNowE
        ++ ([("firstName", JsVal.str ("Teacher" ++ Nat.repr tm.mNowF ++ "_" ++ Nat.repr i)),
            ("email", JsVal.str ("teacher" ++ Nat.repr tm.mNowE ++ "_" ++ Nat.repr i ++ "@test.com"))]
          ++ (o.filter fun p => p.1 ≠ "school"))) "firstName"
      = some (JsVal.str ("Teacher" ++ Nat.repr tm.mNowF ++ "_" ++ Nat.repr i)) := by
  have hC : JsObj.get (o.filter fun p => p.1 ≠ "school") "firstName" = none := by
    rw [JsObj.get_filter_ne o "firstName" "school" (by decide)]
    exact ho
  rw [JsObj.get_append, JsObj.get_append, hC]
  simp [JsObj.get]

theorem teacherData_core_get_email (o : JsObj) (tm : TeacherTimes) (i : Nat)
    (ho : JsObj.get o "email" = none) (sid : Option Int) :
    JsObj.get (teacherDefaultData sid tm.dNowF tm.dNowE
        ++ ([("firstName", JsVal.str ("Teacher" ++ Nat.repr tm.mNowF ++ "_" ++ Nat.repr i)),
            ("email", JsVal.str ("teacher" ++ Nat.repr tm.mNowE ++ "_" ++ Nat.repr i ++ "@test.com"))]
          ++ (o.filter fun p => p.1 ≠ "school"))) "email"
      = some (JsVal.str ("teacher" ++ Nat.repr tm.mNowE ++ "_" ++ Nat.repr i ++ "@test.com")) := by
  have hC : JsObj.get (o.filter fun p => p.1 ≠ "school") "email" = none := by
    rw [JsObj.get_filter_ne o "email" "school" (by decide)]
    exact ho
  rw [JsObj.get_append, JsObj.get_append, hC]
  simp [JsObj.get]

theorem teacherRowData_get_firstName (o : JsObj) (tm : TeacherTimes) (i : Nat)
    (ho : JsObj.get o "firstName" = none) :
    JsObj.get (teacherRowData o tm i) "firstName"
      = some (JsVal.str ("Teacher" ++ Nat.repr tm.mNowF ++ "_" ++ Nat.repr i)) := by
  simp only [teacherRowData]
  cases hs : jsSchool (JsObj.get o "school") with
  | none =>
    simp only [hs, Option.map_none']
    exact teacherData_core_get_firstName o tm i ho none
  | some s =>
    simp only [hs, Option.map_some']
    by_cases hz : s.id = 0
    · rw [if_pos hz]
      exact teacherData_core_get_firstName o tm i ho (some s.id)
    · rw [if_neg hz,
          JsObj.get_append_left _ _ _ (by simp [JsObj.get])]
      exact teacherData_core_get_firstName o tm i ho (some s.id)

theorem teacherRowData_get_email (o : JsObj) (tm : TeacherTimes) (i : Nat)
    (ho : JsObj.get o "email" = none) :
    JsObj.get (teacherRowData o tm i) "email"
      = some (JsVal.str ("teacher" ++ Nat.repr tm.mNowE ++ "_" ++ Nat.repr i ++ "@test.com")) := by
  simp only [teacherRowData]
  cases hs : jsSchool (JsObj.get o "school") with
  | none =>
    simp only [hs, Option.map_none']
    exact teacherData_core_get_email o tm i ho none
  | some s =>
    simp only [hs, Option.map_some']
    by_cases hz : s.id = 0
    · rw [if_pos hz]
      exact teacherData_core_get_email o tm i ho (some s.id)
    · rw [if_neg hz,
          JsObj.get_append_left _ _ _ (by simp [JsObj.get])]
      exact teacherData_core_get_email o tm i ho (some s.id)

theorem teacherRowData_get_override (o : JsObj) (tm : TeacherTimes) (i : Nat)
    (k : String) (v : JsVal) (hk : JsObj.get o k = some v) (hks : k ≠ "school") :
    JsObj.get (teacherRowData o tm i) k
      = (match (jsSchool (JsObj.get o "school")).map School.id with
         | some sv => if sv = 0 then some v
             else if k = "schoolId" then some (JsVal.num sv) else some v
         | none => some v) := by
  have hC : JsObj.get (o.filter fun p => p.1 ≠ "school") k = some v := by
    rw [JsObj.get_filter_ne o k "school" hks]
    exact hk
  have hcore : ∀ sid : Option Int,
      JsObj.get (teacherDefaultData sid tm.dNowF tm.dNowE
        ++ ([("firstName", JsVal.str ("Teacher" ++ Nat.repr tm.mNowF ++ "_" ++ Nat.repr i)),
            ("email", JsVal.str ("teacher" ++ Nat.repr tm.mNowE ++ "_" ++ Nat.repr i ++ "@test.com"))]
          ++ (o.filter fun p => p.1 ≠ "school"))) k = some v := by
    intro sid
    rw [JsObj.get_append, JsObj.get_append, hC]
  simp only [teacherRowData]
  cases hs : jsSchool (JsObj.get o "school") with
  | none =>
    simp only [hs, Option.map_none']
    exact hcore none
  | some s =>
    simp only [hs, Option.map_some']
    by_cases hz : s.id = 0
    · rw [if_pos hz, if_pos hz]
      exact hcore (some s.id)
    · rw [if_neg hz, if_neg hz]
      by_cases hsk : k = "schoolId"
      · subst hsk
        rw [if_pos rfl]
        exact JsObj.get_append_right _ _ _ _ (by simp [JsObj.get])
      · rw [if_neg hsk,
            JsObj.get_append_left _ _ _ (by simp [JsObj.get, Ne.symm hsk])]
        exact hcore (some s.id)

theorem teacherCreateMany_map_get (count : Nat) (o : JsObj) (times : Nat → TeacherTimes)
    (t : TableState) (dbNow : Nat) (k : String)
    (h1 : k ≠ "id") (h2 : k ≠ "createdAt") (h3 : k ≠ "updatedAt") :
    (teacherCreateMany count o times t dbNow).1.map (fun r => JsObj.get r k)
      = (List.range count).map fun i => JsObj.get (teacherRowData o (times i) i) k := by
  show (insertMany t ((List.range count).map fun i => teacherRowData o (times i) i) dbNow).1.map
      (fun r => JsObj.get r k) = _
  rw [insertMany_map_get _ _ _ _ h1 h2 h3, List.map_map]
  rfl

theorem schoolCreateMany_map_name (count : Nat) (o : JsObj) (st : GenState)
    (rands : Nat → SchoolRand) (t : TableState) (dbNow : Nat)
    (ho : JsObj.get o "name" = none) :
    (schoolCreateMany count o st rands t dbNow).1.map (fun p => JsObj.get p "name")
      = (List.range count).map
          (fun j => some (JsVal.str ("Test School" ++ " " ++ Nat.repr (st.counter + j + 1)))) := by
  show (insertMany t (schoolPayloads o rands 0 count st).1 dbNow).1.map
      (fun p => JsObj.get p "name") = _
  rw [insertMany_map_get _ _ _ _ (by decide) (by decide) (by decide),
      schoolPayloads_names o rands ho count 0 st]

theorem range_map_pairwise_ne {α : Type} (f : Nat → α)
    (hf : ∀ i j, i < j → f i ≠ f j) (n : Nat) :
    ((List.range n).map f).Pairwise (· ≠ ·) := by
  rw [List.pairwise_map]
  exact (List.pairwise_lt_range n).imp (fun h => hf _ _ h)

theorem school_names_ne (st : GenState) (i j : Nat) (hij : i < j) :
    (some (JsVal.str ("Test School" ++ " " ++ Nat.repr (st.counter + i + 1))) : Option JsVal)
      ≠ some (JsVal.str ("Test School" ++ " " ++ Nat.repr (st.counter + j + 1))) := by
  intro h
  have h2 := JsVal.str.inj (Option.some.inj h)
  have h3 := prefix_repr_injective ("Test School" ++ " ") _ _ h2
  omega

theorem teacher_firstNames_ne (times : Nat → TeacherTimes) (i j : Nat) (hij : i < j) :
    (some (JsVal.str ("Teacher" ++ Nat.repr (times i).mNowF ++ "_" ++ Nat.repr i)) : Option JsVal)
      ≠ some (JsVal.str ("Teacher" ++ Nat.repr (times j).mNowF ++ "_" ++ Nat.repr j)) := by
  intro h
  have h2 := JsVal.str.inj (Option.some.inj h)
  have h3 : "Teacher" ++ Nat.repr (times i).mNowF ++ "_" ++ Nat.repr i ++ ""
      = "Teacher" ++ Nat.repr (times j).mNowF ++ "_" ++ Nat.repr j ++ "" := by
    rw [String.append_empty, String.append_empty]
    exact h2
  have h4 := prefix_time_index_injective "Teacher" "" _ _ _ _ h3
  omega

theorem teacher_emails_ne (times : Nat → TeacherTimes) (i j : Nat) (hij : i < j) :
    (some (JsVal.str ("teacher" ++ Nat.repr (times i).mNowE ++ "_" ++ Nat.repr i ++ "@test.com")) : Option JsVal)
      ≠ some (JsVal.str ("teacher" ++ Nat.repr (times j).mNowE ++ "_" ++ Nat.repr j ++ "@test.com")) := by
  intro h
  have h2 := JsVal.str.inj (Option.some.inj h)
  have h4 := prefix_time_index_injective "teacher" "@test.com" _ _ _ _ h2
  omega

/- ----------------------------------------------------------------
   Claim C6
   ---------------------------------------------------------------- -/

/-- C6 counterexample: a two-row School createMany batch in an environment
where Date.now and the random email token repeat across the rows: both
persisted rows carry the identical default email, contradicting the claimed
pairwise distinctness of generated emails for every entity factory. -/
theorem createMany_school_email_collision_cx :
    ((schoolCreateMany 2 [] ⟨0⟩ (fun _ => ⟨0, 0, 0, 0, 0, 0, "x"⟩)
        TableState.init 0).1.map fun p => JsObj.get p "email")
      = [some (JsVal.str "school0x@example.com"),
         some (JsVal.str "school0x@example.com")] := by
  decide

/-- C6 (amended): createMany(n) returns exactly n rows for both factories;
the default-generated School names (uniqueness-counter based) and the
default-generated Teacher firstNames and emails (index-suffixed) are pairwise
distinct across the batch whenever those attributes are not overridden; and a
supplied override set is applied identically to every row of the batch (for
the Teacher factory, identically up to the school-entity extraction, which
also acts identically on every row). Default School emails, however, are
timestamp-and-random based and not guaranteed distinct. -/
theorem createMany_batch_semantics (count : Nat) (o : JsObj) (st : GenState)
    (rands : Nat → SchoolRand) (times : Nat → TeacherTimes)
    (t : TableState) (dbNow : Nat)
    (hname : JsObj.get o "name" = none)
    (hfn : JsObj.get o "firstName" = none)
    (hem : JsObj.get o "email" = none) :
    (schoolCreateMany count o st rands t dbNow).1.length = count ∧
    (teacherCreateMany count o times t dbNow).1.length = count ∧
    ((schoolCreateMany count o st rands t dbNow).1.map
      fun p => JsObj.get p "name").Pairwise (· ≠ ·) ∧
    ((teacherCreateMany count o times t dbNow).1.map
      fun p => JsObj.get p "firstName").Pairwise (· ≠ ·) ∧
    ((teacherCreateMany count o times t dbNow).1.map
      fun p => JsObj.get p "email").Pairwise (· ≠ ·) ∧
    (∀ k v, JsObj.get o k = some v → k ≠ "id" → k ≠ "createdAt" → k ≠ "updatedAt" →
      ∀ p ∈ (schoolCreateMany count o st rands t dbNow).1, JsObj.get p k = some v) ∧
    (∀ k v, JsObj.get o k = some v → k ≠ "id" → k ≠ "createdAt" → k ≠ "updatedAt" →
      k ≠ "school" →
      ∃ u, ∀ p ∈ (teacherCreateMany count o times t dbNow).1, JsObj.get p k = u) := by
  refine ⟨?_, ?_, ?_, ?_, ?_, ?_, ?_⟩
  · show (insertMany t (schoolPayloads o rands 0 count st).1 dbNow).1.length = count
    rw [insertMany_length, schoolPayloads_length]
  · show (insertMany t ((List.range count).map
      fun i => teacherRowData o (times i) i) dbNow).1.length = count
    rw [insertMany_length, List.length_map, List.length_range]
  · rw [schoolCreateMany_map_name count o st rands t dbNow hname]
    exact range_map_pairwise_ne _ (fun i j hij => school_names_ne st i j hij) count
  · rw [teacherCreateMany_map_get count o times t dbNow "firstName"
        (by decide) (by decide) (by decide),
        List.map_congr_left (fun i _ => teacherRowData_get_firstName o (times i) i hfn)]
    exact range_map_pairwise_ne _ (fun i j hij => teacher_firstNames_ne times i j hij) count
  · rw [teacherCreateMany_map_get count o times t dbNow "email"
        (by decide) (by decide) (by decide),
        List.map_congr_left (fun i _ => teacherRowData_get_email o (times i) i hem)]
    exact range_map_pairwise_ne _ (fun i j hij => teacher_emails_ne times i j hij) count
  · intro k v hkv h1 h2 h3 p hp
    have hmem := List.mem_map_of_mem (fun r => JsObj.get r k) hp
    rw [show (schoolCreateMany count o st rands t dbNow).1
          = (insertMany t (schoolPayloads o rands 0 count st).1 dbNow).1 from rfl,
        insertMany_map_get _ _ _ _ h1 h2 h3] at hmem
    obtain ⟨q, hq, heq⟩ := List.mem_map.1 hmem
    have heq' : JsObj.get q k = JsObj.get p k := heq
    rw [← heq']
    exact schoolPayloads_override o rands k v hkv count 0 st q hq
  · intro k v hkv h1 h2 h3 hks
    refine ⟨(match (jsSchool (JsObj.get o "school")).map School.id with
      | some sv => if sv = 0 then some v
          else if k = "schoolId" then some (JsVal.num sv) else some v
      | none => some v), ?_⟩
    intro p hp
    have hmem := List.mem_map_of_mem (fun r => JsObj.get r k) hp
    rw [teacherCreateMany_map_get count o times t dbNow k h1 h2 h3] at hmem
    obtain ⟨i, _, heq⟩ := List.mem_map.1 hmem
    have heq' : JsObj.get (teacherRowData o (times i) i) k = JsObj.get p k := heq
    rw [← heq']
    exact teacherRowData_get_override o (times i) i k v hkv hks

/-- C6 witness: a two-row batch with a subject override: exactly two rows,
distinct generated School names, and the override present on every School
row. -/
theorem createMany_batch_semantics_witness :
    (schoolCreateMany 2 [("subject", JsVal.str "Math")] ⟨0⟩
        (fun _ => ⟨0, 0, 0, 0, 0, 0, "x"⟩) TableState.init 0).1.length = 2 ∧
    ((schoolCreateMany 2 [("subject", JsVal.str "Math")] ⟨0⟩
        (fun _ => ⟨0, 0, 0, 0, 0, 0, "x"⟩) TableState.init 0).1.map
      fun p => JsObj.get p "name").Pairwise (· ≠ ·) := by
  have h := createMany_batch_semantics 2 [("subject", JsVal.str "Math")] ⟨0⟩
    (fun _ => ⟨0, 0, 0, 0, 0, 0, "x"⟩) (fun _ => ⟨0, 0, 0, 0⟩) TableState.init 0
    rfl rfl rfl
  exact ⟨h.1, h.2.2.1⟩

end NestE2E
